import Mathlib

set_option maxRecDepth 4000

/-!
Shallow embedding of the Oqualtix fraud-detection engine
(`fraud_detection_analyzer.py`): per-vendor statistics, the four anomaly
detectors, and the aggregation/ranking step, together with proofs of the
specification claims.

Modelling conventions:
* Monetary amounts and risk scores are embedded as `ℚ` (the Python code uses
  IEEE floats; all claims are about exact comparisons and closed-form
  arithmetic, which ℚ captures).
* The sample standard deviation computed by `pandas.Series.std` is a
  floating-point square root of the rational sample variance.  The square
  root is kept as an explicit parameter `stdFn : ℚ → ℚ` (applied to the
  sample variance); theorems quantify over it, and concrete instances use
  `ratSqrt`, which is exact on perfect-square rationals.
* Heterogeneous Python dict values (a Timestamp vs. a string in the `date`
  slot, format strings in `reason`/`description`) are embedded as small
  inductive sum types carrying the underlying data.
-/

/-- Calendar date (the engine only reads year/month for grouping). -/
structure Date where
  year : Nat
  month : Nat
  day : Nat
deriving DecidableEq, Repr

/-- A month period, as produced by `date.dt.to_period('M')`. -/
structure YearMonth where
  year : Nat
  month : Nat
deriving DecidableEq, Repr

/-- Zero-pad a number to two digits, as in period formatting. -/
def pad2 (n : Nat) : String :=
  if n < 10 then "0" ++ toString n else toString n

/-- Zero-pad a number to four digits, as in period formatting. -/
def pad4 (n : Nat) : String :=
  if n < 10 then "000" ++ toString n
  else if n < 100 then "00" ++ toString n
  else if n < 1000 then "0" ++ toString n
  else toString n

/-- String rendering of a month period, matching `str(pandas.Period)`,
for example `2024-03`. -/
def ymString (m : YearMonth) : String :=
  pad4 m.year ++ "-" ++ pad2 m.month

/-- The month period of a date, `date.dt.to_period('M')`. -/
def Date.toYM (d : Date) : YearMonth := ⟨d.year, d.month⟩

/-- Month-period comparison (lexicographic year, month). -/
def ymLe (a b : YearMonth) : Bool :=
  decide (a.year < b.year) || (decide (a.year = b.year) && decide (a.month ≤ b.month))

/-- One input transaction record, with the required columns of
`load_data` (`date`, `amount`, `vendor`, `description`, `payment_method`)
plus the `transaction_id` column carried by the data model. -/
structure Transaction where
  transaction_id : String
  date : Date
  vendor : String
  amount : ℚ
  description : String
  payment_method : String
deriving DecidableEq, Repr

/-- The `anomaly_type` tag of an emitted anomaly record. -/
inductive AnomalyType
  | statisticalOutlier
  | roundDollarPattern
  | thresholdEvasion
  | frequencySpike
  | vendorConcentration
deriving DecidableEq, Repr

/-- The `date` slot of an anomaly dict is heterogeneous in the source: a
transaction timestamp for transaction-level anomalies, a plain string
(period label or `Overall Period`) for aggregate-level anomalies. -/
inductive DateField
  | ts (d : Date)
  | txt (s : String)
deriving DecidableEq, Repr

/-- The `description` slot: the transaction description for
transaction-level anomalies, or a generated summary for aggregate ones
(the format-string text is abstracted, its numeric payload kept). -/
inductive Descr
  | ofTxn (s : String)
  | highFrequencyMonth (count : Nat)
  | highConcentration (conc : ℚ)
deriving DecidableEq, Repr

/-- The `reason` slot: one constructor per detector, carrying the numeric
data interpolated into the source format string. -/
inductive Reason
  | exceedsThreshold (amount threshold sigmaMult : ℚ)
  | roundDollarAmount (amount : ℚ)
  | justUnderThreshold (amount threshold : ℚ)
  | unusualFrequency (count : Nat) (meanFreq : ℚ)
  | concentrationShare (conc vendorTotal batchTotal : ℚ)
deriving DecidableEq, Repr

/-- An emitted anomaly record.  The three optional evidence fields are
present only on statistical-outlier records, mirroring the extra dict keys
`vendor_mean`, `vendor_std`, `sigma_multiplier` in the source. -/
structure Anomaly where
  transaction_id : String
  date : DateField
  vendor : String
  amount : ℚ
  description : Descr
  anomaly_type : AnomalyType
  risk_score : ℚ
  reason : Reason
  vendor_mean : Option ℚ := none
  vendor_std : Option ℚ := none
  sigma_multiplier : Option ℚ := none
deriving DecidableEq, Repr

/-- Deduplication keeping the first occurrence, as `pandas.unique` does;
`seen` accumulates the values already emitted. -/
def uniqAux [DecidableEq α] : List α → List α → List α
  | _, [] => []
  | seen, x :: xs =>
      if x ∈ seen then uniqAux seen xs else x :: uniqAux (x :: seen) xs

/-- Order-preserving deduplication (first occurrences), as
`pandas.unique`. -/
def uniqList [DecidableEq α] (l : List α) : List α := uniqAux [] l

/-- Largest `k` at most the fuel bound with `k * k ≤ n`, by downward
search (structural recursion, so concrete values reduce). -/
def natSqrtAux (n : Nat) : Nat → Nat
  | 0 => 0
  | k + 1 => if (k + 1) * (k + 1) ≤ n then k + 1 else natSqrtAux n k

/-- Floor integer square root by downward search. -/
def natSqrtLin (n : Nat) : Nat := natSqrtAux n n

/-- Exact rational square root on perfect squares (numerator and
denominator both perfect squares); models the floating-point
`sqrt` used by `pandas.Series.std`, which is exact on such inputs. -/
def ratSqrt (q : ℚ) : ℚ :=
  (natSqrtLin q.num.toNat : ℚ) / (natSqrtLin q.den : ℚ)

/-- Arithmetic mean of a list of rationals (`Series.mean`); division by
zero on the empty list yields 0. -/
def listMean (l : List ℚ) : ℚ := l.sum / (l.length : ℚ)

/-- Sample variance with the n-1 denominator, the square of
`Series.std(ddof=1)`. -/
def sampleVariance (l : List ℚ) : ℚ :=
  ((l.map (fun x => (x - listMean l) ^ 2)).sum) / ((l.length : ℚ) - 1)

/-- Amount column of one vendor, `df[df.vendor == v].amount`. -/
def vendorAmounts (df : List Transaction) (v : String) : List ℚ :=
  (df.filter (fun t => t.vendor == v)).map (fun t => t.amount)

/-- Per-vendor summary statistics kept by `compute_vendor_statistics`.
Only the fields the detectors read are embedded (`count`, `mean`, `std`,
`threshold_3sigma`); the purely descriptive quantile fields of the source
dict (`median`, `q25`, `q75`, `iqr`, `min`, `max`) are not consumed by any
detector and are omitted. -/
structure VendorStats where
  count : Nat
  mean : ℚ
  std : ℚ
  threshold_3sigma : ℚ
deriving DecidableEq, Repr

/-- Builds the statistics entry of one vendor from its amount column:
`std` is `stdFn` of the sample variance and
`threshold_3sigma = mean + sigma * std`. -/
def mkVendorStats (stdFn : ℚ → ℚ) (sigma : ℚ) (amts : List ℚ) : VendorStats :=
  let m := listMean amts
  let sd := stdFn (sampleVariance amts)
  ⟨amts.length, m, sd, m + sigma * sd⟩

/-- Embedding of `compute_vendor_statistics`: for each distinct vendor (in
first-appearance order, as `unique()`), if it has at least `minTx`
transactions, record its statistics. -/
def computeVendorStats (stdFn : ℚ → ℚ) (sigma : ℚ) (minTx : Nat)
    (df : List Transaction) : List (String × VendorStats) :=
  (uniqList (df.map (fun t => t.vendor))).filterMap (fun v =>
    let amts := vendorAmounts df v
    if minTx ≤ amts.length then some (v, mkVendorStats stdFn sigma amts) else none)

/-- Observed sigma multiple `(amount - mean) / std` when `std > 0`, else 0,
as computed at line 90 of the source. -/
def sigmaMultiplierObs (s : VendorStats) (amount : ℚ) : ℚ :=
  if 0 < s.std then (amount - s.mean) / s.std else 0

/-- The anomaly dict built for a statistical outlier (lines 91-103).  The
risk score hardcodes the subtrahend 3 as the source does. -/
def outlierRecord (t : Transaction) (s : VendorStats) : Anomaly :=
  let sm := sigmaMultiplierObs s t.amount
  { transaction_id := t.transaction_id
    date := DateField.ts t.date
    vendor := t.vendor
    amount := t.amount
    description := Descr.ofTxn t.description
    anomaly_type := AnomalyType.statisticalOutlier
    risk_score := min 100 (max 0 ((sm - 3) * 20 + 70))
    reason := Reason.exceedsThreshold t.amount s.threshold_3sigma sm
    vendor_mean := some s.mean
    vendor_std := some s.std
    sigma_multiplier := some sm }

/-- Per-row body of the outlier loop: flag iff the vendor has statistics
and the amount strictly exceeds its threshold. -/
def outlierOpt (stats : List (String × VendorStats)) (t : Transaction) :
    Option Anomaly :=
  match stats.lookup t.vendor with
  | some s => if s.threshold_3sigma < t.amount then some (outlierRecord t s) else none
  | none => none

/-- Embedding of `detect_statistical_outliers`: one pass over the rows,
appending at most one outlier per row. -/
def detectStatisticalOutliers (stats : List (String × VendorStats))
    (df : List Transaction) : List Anomaly :=
  df.filterMap (outlierOpt stats)

/-- The fixed ascending list of common approval thresholds (line 115). -/
def approvalThresholds : List ℚ := [1000, 2500, 5000, 10000, 25000, 50000]

/-- Whether `amount % 100 == 0`, i.e. the amount is an exact multiple
of 100. -/
def isMultipleOf100 (q : ℚ) : Bool := (q / 100).den == 1

/-- The anomaly dict built for a round-dollar pattern (lines 122-132). -/
def roundRecord (t : Transaction) : Anomaly :=
  { transaction_id := t.transaction_id
    date := DateField.ts t.date
    vendor := t.vendor
    amount := t.amount
    description := Descr.ofTxn t.description
    anomaly_type := AnomalyType.roundDollarPattern
    risk_score := min 85 (40 + t.amount / 10000)
    reason := Reason.roundDollarAmount t.amount }

/-- Per-row round-dollar check: `amount % 100 == 0 and amount >= 1000`. -/
def roundOpt (t : Transaction) : Option Anomaly :=
  if isMultipleOf100 t.amount && decide (1000 ≤ t.amount) then some (roundRecord t)
  else none

/-- The anomaly dict built for threshold evasion (lines 138-147), with the
fixed risk score 80. -/
def teRecord (t : Transaction) (thr : ℚ) : Anomaly :=
  { transaction_id := t.transaction_id
    date := DateField.ts t.date
    vendor := t.vendor
    amount := t.amount
    description := Descr.ofTxn t.description
    anomaly_type := AnomalyType.thresholdEvasion
    risk_score := 80
    reason := Reason.justUnderThreshold t.amount thr }

/-- Per-row threshold-evasion check: the loop over `thresholds` with a
`break` at the first match is the first threshold `thr` (in list order)
with `thr - 100 <= amount < thr`. -/
def teOpt (t : Transaction) : Option Anomaly :=
  (approvalThresholds.find? (fun thr =>
    decide (thr - 100 ≤ t.amount) && decide (t.amount < thr))).map (teRecord t)

/-- Embedding of `detect_round_dollar_patterns`: per row, the round-dollar
anomaly (if any) is appended before the threshold-evasion anomaly (if
any). -/
def detectRoundDollarPatterns (df : List Transaction) : List Anomaly :=
  df.flatMap (fun t => (roundOpt t).toList ++ (teOpt t).toList)

/-- Distinct vendors in ascending name order, the key order produced by
`groupby` (which sorts its keys). -/
def vendorsSorted (df : List Transaction) : List String :=
  (uniqList (df.map (fun t => t.vendor))).insertionSort (fun a b => a ≤ b)

/-- Distinct month periods of one vendor, ascending, as the
`(vendor, year_month)` group keys of that vendor appear in the sorted
`groupby` result. -/
def monthsOf (df : List Transaction) (v : String) : List YearMonth :=
  (uniqList ((df.filter (fun t => t.vendor == v)).map
    (fun t => t.date.toYM))).insertionSort (fun a b => ymLe a b = true)

/-- Transaction count of one `(vendor, month)` group. -/
def countVM (df : List Transaction) (v : String) (m : YearMonth) : Nat :=
  ((df.filter (fun t => t.vendor == v)).filter (fun t => t.date.toYM == m)).length

/-- Monthly transaction counts of one vendor, months ascending. -/
def monthlyCounts (df : List Transaction) (v : String) : List ℚ :=
  (monthsOf df v).map (fun m => (countVM df v m : ℚ))

/-- Mean monthly transaction count of one vendor. -/
def freqMean (df : List Transaction) (v : String) : ℚ :=
  listMean (monthlyCounts df v)

/-- Sample variance of the monthly transaction counts of one vendor. -/
def freqVar (df : List Transaction) (v : String) : ℚ :=
  sampleVariance (monthlyCounts df v)

/-- The anomaly dict built for a frequency spike (lines 174-183): synthetic
id `freq_{vendor}_{year_month}`, the period label string in the date slot,
amount 0. -/
def freqRecord (v : String) (m : YearMonth) (count : Nat) (meanFreq : ℚ) : Anomaly :=
  { transaction_id := "freq_" ++ v ++ "_" ++ ymString m
    date := DateField.txt (ymString m)
    vendor := v
    amount := 0
    description := Descr.highFrequencyMonth count
    anomaly_type := AnomalyType.frequencySpike
    risk_score := min 90 (50 + ((count : ℚ) - meanFreq) * 5)
    reason := Reason.unusualFrequency count meanFreq }

/-- Per-month body of the frequency loop: flag the month iff
`count > mean + 2*std` and `count >= 10`. -/
def freqEmitOpt (stdFn : ℚ → ℚ) (df : List Transaction) (v : String)
    (m : YearMonth) : Option Anomaly :=
  let c := countVM df v m
  if decide (freqMean df v + 2 * stdFn (freqVar df v) < (c : ℚ)) && decide (10 ≤ c)
  then some (freqRecord v m c (freqMean df v)) else none

/-- Embedding of the anomaly output of `detect_frequency_anomalies`: per
vendor (sorted), require at least 3 months of history and strictly
positive standard deviation of the monthly counts, then scan the months. -/
def detectFrequencyAnomalies (stdFn : ℚ → ℚ) (df : List Transaction) : List Anomaly :=
  (vendorsSorted df).flatMap (fun v =>
    if 3 ≤ (monthsOf df v).length then
      if 0 < stdFn (freqVar df v) then (monthsOf df v).filterMap (freqEmitOpt stdFn df v)
      else []
    else [])

/-- Sum of the amount column, `df.amount.sum()`. -/
def totalAmount (df : List Transaction) : ℚ := (df.map (fun t => t.amount)).sum

/-- Total amount of one vendor. -/
def vendorTotal (df : List Transaction) (v : String) : ℚ := (vendorAmounts df v).sum

/-- Per-vendor totals sorted by total descending, the iteration order of
`groupby('vendor').amount.sum().sort_values(ascending=False)` (the source
sort is an unstable quicksort, so the order among vendors with equal
totals is unspecified there; a fixed order is used here, which no claim
depends on). -/
def vendorTotalsSorted (df : List Transaction) : List (String × ℚ) :=
  ((vendorsSorted df).map (fun v => (v, vendorTotal df v))).insertionSort
    (fun a b => b.2 ≤ a.2)

/-- The anomaly dict built for vendor concentration (lines 201-210). -/
def concRecord (df : List Transaction) (v : String) (total : ℚ) : Anomaly :=
  let conc := total / totalAmount df
  { transaction_id := "conc_" ++ v
    date := DateField.txt "Overall Period"
    vendor := v
    amount := total
    description := Descr.highConcentration conc
    anomaly_type := AnomalyType.vendorConcentration
    risk_score := min 95 (60 + conc * 100)
    reason := Reason.concentrationShare conc total (totalAmount df) }

/-- Embedding of `detect_vendor_concentration`.  In the source, a zero
batch total makes `concentration = total/total_amount` the float NaN
(`0.0/0.0`, warnings suppressed), and `NaN > threshold` is false, so
nothing is emitted; this NaN behaviour is embedded as the explicit
`totalAmount df ≠ 0` conjunct of the guard.  (A nonzero vendor total with
a zero batch total cannot occur for the non-negative amounts of the data
model.) -/
def detectVendorConcentration (thr : ℚ) (df : List Transaction) : List Anomaly :=
  (vendorTotalsSorted df).filterMap (fun p =>
    if totalAmount df ≠ 0 ∧ thr < p.2 / totalAmount df
    then some (concRecord df p.1 p.2) else none)

/-- Descending risk-score comparison used by the final ranking
(`sort(key=risk_score, reverse=True)`, a stable sort). -/
def riskDescBool (a b : Anomaly) : Bool := decide (b.risk_score ≤ a.risk_score)

/-- Embedding of `run_full_analysis`: compute vendor statistics, run the
four detectors in order, concatenate, and stably sort by risk score
descending.  The console printing of the source is presentation and not
embedded. -/
def runFullAnalysis (stdFn : ℚ → ℚ) (sigma : ℚ) (minTx : Nat)
    (df : List Transaction) : List Anomaly :=
  let stats := computeVendorStats stdFn sigma minTx df
  (detectStatisticalOutliers stats df ++ detectRoundDollarPatterns df
    ++ detectFrequencyAnomalies stdFn df
    ++ detectVendorConcentration (3/10) df).mergeSort riskDescBool

/-- The loaded batch as mutable analyzer state: the transaction rows of
`self.df` plus the derived `year_month` column, which is absent after
`load_data` and written by `detect_frequency_anomalies` (line 160). -/
structure DfState where
  txns : List Transaction
  year_month_col : Option (List YearMonth)
deriving DecidableEq, Repr

/-- Stateful view of `detect_statistical_outliers`: reads the batch, writes
nothing. -/
def detectStatisticalOutliersSt (stats : List (String × VendorStats))
    (s : DfState) : DfState × List Anomaly :=
  (s, detectStatisticalOutliers stats s.txns)

/-- Stateful view of `detect_round_dollar_patterns`: reads the batch,
writes nothing. -/
def detectRoundDollarPatternsSt (s : DfState) : DfState × List Anomaly :=
  (s, detectRoundDollarPatterns s.txns)

/-- Stateful view of `detect_frequency_anomalies`: line 160 assigns the
derived `year_month` column onto the shared dataframe before grouping. -/
def detectFrequencyAnomaliesSt (stdFn : ℚ → ℚ) (s : DfState) :
    DfState × List Anomaly :=
  (⟨s.txns, some (s.txns.map (fun t => t.date.toYM))⟩,
   detectFrequencyAnomalies stdFn s.txns)

/-- Stateful view of `detect_vendor_concentration`: reads the batch, writes
nothing. -/
def detectVendorConcentrationSt (thr : ℚ) (s : DfState) : DfState × List Anomaly :=
  (s, detectVendorConcentration thr s.txns)

/-- Modelled from the spec (section 4.2): the claimed risk-score formula
for a flagged statistical outlier,
`clamp(0, 100, (sigma_observed - sigma_multiplier) * 20 + 70)`, in which
the configured multiplier itself is subtracted.  Used only to compare the
spec formula against the source formula, which subtracts the constant 3. -/
def specRiskScoreOutlier (sigmaMult mean std amount : ℚ) : ℚ :=
  let sigObs := if 0 < std then (amount - mean) / std else 0
  min 100 (max 0 ((sigObs - sigmaMult) * 20 + 70))

/-- Shorthand for building a concrete transaction in examples. -/
def mkT (id : String) (y mo d : Nat) (v : String) (amt : ℚ) : Transaction :=
  ⟨id, ⟨y, mo, d⟩, v, amt, "services", "ACH"⟩

/-- Concrete batch for the risk-formula counterexample: vendor `A` has seven
transactions with mean 10 and exact sample standard deviation 5, and the
amount 21 exceeds the 2-sigma threshold 20. -/
def exDfA : List Transaction :=
  [mkT "t1" 2024 1 1 "A" 6, mkT "t2" 2024 1 2 "A" 7, mkT "t3" 2024 1 3 "A" 9,
   mkT "t4" 2024 1 4 "A" 9, mkT "t5" 2024 1 5 "A" 9, mkT "t6" 2024 1 6 "A" 9,
   mkT "t7" 2024 1 7 "A" 21]

/-- Concrete batch with a frequency spike: vendor `V` has one transaction in
each of 2024-01 and 2024-02 and ten transactions in 2024-03. -/
def freqDfV : List Transaction :=
  [mkT "f1" 2024 1 1 "V" 1, mkT "f2" 2024 2 1 "V" 1] ++
  (List.range 10).map (fun i => mkT ("g" ++ toString i) 2024 3 (i + 1) "V" 1)

/-- Concrete two-vendor batch with 70 percent concentration on vendor `A`. -/
def concDf : List Transaction :=
  [mkT "c1" 2024 1 1 "A" 70, mkT "c2" 2024 1 2 "B" 30]

/-- Concrete batch whose amounts are all zero. -/
def zeroDf : List Transaction :=
  [mkT "z1" 2024 1 1 "A" 0, mkT "z2" 2024 1 2 "B" 0]

/-- Membership in the accumulator-based deduplication. -/
theorem mem_uniqAux [DecidableEq α] {x : α} (l : List α) :
    ∀ seen : List α, x ∈ uniqAux seen l ↔ x ∈ l ∧ x ∉ seen := by
  induction l with
  | nil => intro seen; simp [uniqAux]
  | cons a l ih =>
    intro seen
    simp only [uniqAux]
    split
    · next ha =>
      rw [ih]
      simp only [List.mem_cons]
      constructor
      · rintro ⟨h1, h2⟩
        exact ⟨Or.inr h1, h2⟩
      · rintro ⟨h1 | h1, h2⟩
        · exact absurd (h1 ▸ ha) h2
        · exact ⟨h1, h2⟩
    · next ha =>
      simp only [List.mem_cons, ih]
      constructor
      · rintro (rfl | ⟨h1, h2⟩)
        · exact ⟨Or.inl rfl, ha⟩
        · refine ⟨Or.inr h1, fun hs => h2 (Or.inr hs)⟩
      · rintro ⟨rfl | h1, h2⟩
        · exact Or.inl rfl
        · by_cases hxa : x = a
          · exact Or.inl hxa
          · exact Or.inr ⟨h1, fun hs => hs.elim hxa h2⟩

/-- Deduplication does not change membership. -/
theorem mem_uniqList [DecidableEq α] {x : α} {l : List α} :
    x ∈ uniqList l ↔ x ∈ l := by
  simp [uniqList, mem_uniqAux]

/-- Lookup in a keyed filter-map: the association list built from a vendor
list by keeping exactly the vendors satisfying `p` maps `v` to `g v` iff
`v` is listed and satisfies `p`. -/
theorem lookup_filterMap_if {β : Type} (g : String → β) (p : String → Prop)
    [DecidablePred p] (l : List String) (v : String) :
    (l.filterMap (fun w => if p w then some (w, g w) else none)).lookup v
      = if v ∈ l ∧ p v then some (g v) else none := by
  induction l with
  | nil => simp
  | cons w l ih =>
    simp only [List.filterMap_cons]
    by_cases hw : p w
    · rw [if_pos hw]
      by_cases hv : v = w
      · subst hv
        simp [List.lookup, List.mem_cons, hw]
      · have hbeq : (v == w) = false := by
          simp only [beq_eq_false_iff_ne, ne_eq]
          exact hv
        simp only [List.lookup, hbeq]
        rw [ih]
        simp [List.mem_cons, hv]
    · rw [if_neg hw]
      rw [ih]
      by_cases hv : v = w
      · subst hv
        simp [List.mem_cons, hw]
      · simp [List.mem_cons, hv]

/-- Number of transactions of one vendor in the batch. -/
theorem length_vendorAmounts (df : List Transaction) (v : String) :
    (vendorAmounts df v).length = (df.filter (fun t => t.vendor == v)).length := by
  simp [vendorAmounts]

/-- Characterization of `compute_vendor_statistics` as a mapping: a vendor
is mapped iff it occurs in the batch with at least `minTx` transactions,
and then to the statistics of its amount column. -/
theorem lookup_computeVendorStats (stdFn : ℚ → ℚ) (sigma : ℚ) (minTx : Nat)
    (df : List Transaction) (v : String) :
    (computeVendorStats stdFn sigma minTx df).lookup v
      = if v ∈ df.map (fun t => t.vendor) ∧ minTx ≤ (vendorAmounts df v).length
        then some (mkVendorStats stdFn sigma (vendorAmounts df v)) else none := by
  unfold computeVendorStats
  rw [lookup_filterMap_if (fun w => mkVendorStats stdFn sigma (vendorAmounts df w))
    (fun w => minTx ≤ (vendorAmounts df w).length)]
  simp [mem_uniqList]

/-- Unfolding of the per-row outlier check. -/
theorem outlierOpt_eq_some {stats : List (String × VendorStats)}
    {t : Transaction} {a : Anomaly} :
    outlierOpt stats t = some a ↔
      ∃ s, stats.lookup t.vendor = some s ∧ s.threshold_3sigma < t.amount ∧
        a = outlierRecord t s := by
  unfold outlierOpt
  rcases h : stats.lookup t.vendor with _ | s
  · simp
  · by_cases hlt : s.threshold_3sigma < t.amount
    · simp [hlt, eq_comm]
    · simp [hlt]

/-- Membership in the statistical-outlier output: exactly the rows whose
vendor has statistics and whose amount strictly exceeds the vendor
threshold, each contributing its outlier record. -/
theorem mem_detectStatisticalOutliers {stats : List (String × VendorStats)}
    {df : List Transaction} {a : Anomaly} :
    a ∈ detectStatisticalOutliers stats df ↔
      ∃ t ∈ df, ∃ s, stats.lookup t.vendor = some s ∧
        s.threshold_3sigma < t.amount ∧ a = outlierRecord t s := by
  simp [detectStatisticalOutliers, List.mem_filterMap, outlierOpt_eq_some]

/-- Unfolding of the per-row round-dollar check. -/
theorem roundOpt_eq_some {t : Transaction} {a : Anomaly} :
    roundOpt t = some a ↔
      (isMultipleOf100 t.amount = true ∧ 1000 ≤ t.amount) ∧ a = roundRecord t := by
  unfold roundOpt
  by_cases h1 : isMultipleOf100 t.amount
  · by_cases h2 : (1000 : ℚ) ≤ t.amount
    · simp [h1, h2, eq_comm]
    · simp [h1, h2]
  · simp [h1]

/-- Unfolding of the per-row threshold-evasion check. -/
theorem teOpt_eq_some {t : Transaction} {a : Anomaly} :
    teOpt t = some a ↔
      ∃ thr, approvalThresholds.find?
          (fun thr => decide (thr - 100 ≤ t.amount) && decide (t.amount < thr)) = some thr ∧
        a = teRecord t thr := by
  simp only [teOpt, Option.map_eq_some']
  constructor
  · rintro ⟨thr, h1, h2⟩
    exact ⟨thr, h1, h2.symm⟩
  · rintro ⟨thr, h1, h2⟩
    exact ⟨thr, h1, h2.symm⟩

/-- Membership in the pattern-detector output. -/
theorem mem_detectRoundDollarPatterns {df : List Transaction} {a : Anomaly} :
    a ∈ detectRoundDollarPatterns df ↔
      ∃ t ∈ df, roundOpt t = some a ∨ teOpt t = some a := by
  simp [detectRoundDollarPatterns, List.mem_flatMap, List.mem_append, Option.mem_toList,
    Option.mem_def]

/-- In a list whose consecutive elements are at least 100 apart, at most one
element has the amount in its 100-wide window. -/
theorem window_unique (x u v : ℚ) :
    ∀ l : List ℚ, l.Pairwise (fun a b => a + 100 ≤ b) →
      u ∈ l → v ∈ l → u - 100 ≤ x → x < u → v - 100 ≤ x → x < v → u = v := by
  intro l
  induction l with
  | nil =>
    intro _ hu
    cases hu
  | cons a l ih =>
    intro hl hu hv h1 h2 h3 h4
    rw [List.pairwise_cons] at hl
    obtain ⟨ha, hl2⟩ := hl
    rcases List.mem_cons.mp hu with rfl | hu2
    · rcases List.mem_cons.mp hv with rfl | hv2
      · rfl
      · have hb := ha v hv2
        linarith
    · rcases List.mem_cons.mp hv with rfl | hv2
      · have hb := ha u hu2
        linarith
      · exact ih hl2 hu2 hv2 h1 h2 h3 h4

/-- The concrete approval-threshold list has gaps of at least 100. -/
theorem approvalThresholds_gap :
    approvalThresholds.Pairwise (fun a b => a + 100 ≤ b) := by
  unfold approvalThresholds
  norm_num

/-- What a successful threshold search yields: a listed threshold whose
window contains the amount, minimal among all such thresholds. -/
theorem teFind_characterization {x thr : ℚ}
    (h : approvalThresholds.find?
      (fun u => decide (u - 100 ≤ x) && decide (x < u)) = some thr) :
    thr ∈ approvalThresholds ∧ thr - 100 ≤ x ∧ x < thr ∧
      ∀ u ∈ approvalThresholds, u - 100 ≤ x → x < u → thr ≤ u := by
  have hmem := List.mem_of_find?_eq_some h
  have hp := List.find?_some h
  simp only [Bool.and_eq_true, decide_eq_true_eq] at hp
  refine ⟨hmem, hp.1, hp.2, ?_⟩
  intro u hu h1 h2
  have heq := window_unique x thr u approvalThresholds approvalThresholds_gap
    hmem hu hp.1 hp.2 h1 h2
  exact le_of_eq heq

/-- Membership in a doubly guarded list. -/
theorem mem_ite_ite_nil {c1 c2 : Prop} [Decidable c1] [Decidable c2]
    {X : List α} {a : α} :
    a ∈ (if c1 then if c2 then X else [] else []) ↔ c1 ∧ c2 ∧ a ∈ X := by
  split_ifs with h1 h2 <;> simp_all

/-- Unfolding of the per-month frequency check. -/
theorem freqEmitOpt_eq_some {stdFn : ℚ → ℚ} {df : List Transaction}
    {v : String} {m : YearMonth} {a : Anomaly} :
    freqEmitOpt stdFn df v m = some a ↔
      freqMean df v + 2 * stdFn (freqVar df v) < (countVM df v m : ℚ) ∧
      10 ≤ countVM df v m ∧
      a = freqRecord v m (countVM df v m) (freqMean df v) := by
  unfold freqEmitOpt
  by_cases h1 : freqMean df v + 2 * stdFn (freqVar df v) < (countVM df v m : ℚ)
  · by_cases h2 : 10 ≤ countVM df v m
    · simp [h1, h2, eq_comm]
    · simp [h1, h2]
  · simp [h1]

/-- Membership in the frequency-detector output. -/
theorem mem_detectFrequencyAnomalies {stdFn : ℚ → ℚ} {df : List Transaction}
    {a : Anomaly} :
    a ∈ detectFrequencyAnomalies stdFn df ↔
      ∃ v ∈ vendorsSorted df, 3 ≤ (monthsOf df v).length ∧
        0 < stdFn (freqVar df v) ∧
        ∃ m ∈ monthsOf df v, freqEmitOpt stdFn df v m = some a := by
  simp only [detectFrequencyAnomalies, List.mem_flatMap, mem_ite_ite_nil,
    List.mem_filterMap]

/-- Vendors of the batch, through the sorted deduplicated list. -/
theorem mem_vendorsSorted {df : List Transaction} {v : String} :
    v ∈ vendorsSorted df ↔ ∃ t ∈ df, t.vendor = v := by
  simp [vendorsSorted, List.mem_insertionSort, mem_uniqList, List.mem_map]

/-- Membership in the sorted per-vendor totals. -/
theorem mem_vendorTotalsSorted {df : List Transaction} {p : String × ℚ} :
    p ∈ vendorTotalsSorted df ↔
      p.1 ∈ vendorsSorted df ∧ p.2 = vendorTotal df p.1 := by
  simp only [vendorTotalsSorted, List.mem_insertionSort, List.mem_map]
  constructor
  · rintro ⟨v, hv, rfl⟩
    exact ⟨hv, rfl⟩
  · rintro ⟨hv, hp⟩
    exact ⟨p.1, hv, by rw [← hp]⟩

/-- Membership in the concentration-detector output. -/
theorem mem_detectVendorConcentration {thr : ℚ} {df : List Transaction}
    {a : Anomaly} :
    a ∈ detectVendorConcentration thr df ↔
      totalAmount df ≠ 0 ∧
        ∃ v ∈ vendorsSorted df, thr < vendorTotal df v / totalAmount df ∧
          a = concRecord df v (vendorTotal df v) := by
  simp only [detectVendorConcentration, List.mem_filterMap]
  constructor
  · rintro ⟨p, hp, hsome⟩
    by_cases hc : totalAmount df ≠ 0 ∧ thr < p.2 / totalAmount df
    · rw [if_pos hc] at hsome
      obtain ⟨hp1, hp2⟩ := mem_vendorTotalsSorted.mp hp
      refine ⟨hc.1, p.1, hp1, ?_, ?_⟩
      · rw [← hp2]
        exact hc.2
      · rw [← hp2]
        exact (Option.some_inj.mp hsome).symm
    · rw [if_neg hc] at hsome
      cases hsome
  · rintro ⟨h0, v, hv, hlt, rfl⟩
    refine ⟨(v, vendorTotal df v), mem_vendorTotalsSorted.mpr ⟨hv, rfl⟩, ?_⟩
    rw [if_pos ⟨h0, hlt⟩]

/-- Ranking comparisons used below are transitive. -/
theorem riskDesc_trans {key : α → ℚ} :
    ∀ a b c : α, (fun x y => decide (key y ≤ key x)) a b →
      (fun x y => decide (key y ≤ key x)) b c →
      (fun x y => decide (key y ≤ key x)) a c := by
  intro a b c hab hbc
  simp only [decide_eq_true_eq] at hab hbc ⊢
  exact le_trans hbc hab

/-- Ranking comparisons used below are total. -/
theorem riskDesc_total {key : α → ℚ} :
    ∀ a b : α, ((fun x y => decide (key y ≤ key x)) a b
      || (fun x y => decide (key y ≤ key x)) b a) := by
  intro a b
  simp only [Bool.or_eq_true, decide_eq_true_eq]
  exact le_total (key b) (key a)

/-- Stability of the descending merge sort, phrased through filters: the
elements of any fixed key value keep exactly their input order. -/
theorem filter_mergeSort_key (key : α → ℚ) (r : ℚ) (l : List α) :
    (l.mergeSort (fun a b => decide (key b ≤ key a))).filter
        (fun a => decide (key a = r))
      = l.filter (fun a => decide (key a = r)) := by
  have hpair : (l.filter (fun a => decide (key a = r))).Pairwise
      (fun a b => decide (key b ≤ key a)) := by
    apply List.pairwise_of_forall_mem_list
    intro a ha b hb
    have ha2 := List.of_mem_filter ha
    have hb2 := List.of_mem_filter hb
    simp only [decide_eq_true_eq] at ha2 hb2 ⊢
    rw [ha2, hb2]
  have hsub : List.Sublist (l.filter (fun a => decide (key a = r)))
      (l.mergeSort (fun a b => decide (key b ≤ key a))) :=
    List.sublist_mergeSort riskDesc_trans riskDesc_total hpair (List.filter_sublist l)
  have hsub2 : List.Sublist (l.filter (fun a => decide (key a = r)))
      ((l.mergeSort (fun a b => decide (key b ≤ key a))).filter
        (fun a => decide (key a = r))) := by
    have hff := hsub.filter (fun a => decide (key a = r))
    rwa [List.filter_filter, show
      (fun a => decide (key a = r) && decide (key a = r))
        = (fun a => decide (key a = r)) from by
        funext a
        rw [Bool.and_self]] at hff
  have hlen : ((l.mergeSort (fun a b => decide (key b ≤ key a))).filter
      (fun a => decide (key a = r))).length
        = (l.filter (fun a => decide (key a = r))).length :=
    ((List.mergeSort_perm l (fun a b => decide (key b ≤ key a))).filter
      (fun a => decide (key a = r))).length_eq
  exact (hsub2.eq_of_length hlen.symm).symm

/-- C1: a statistical-outlier anomaly is emitted exactly for the
transactions whose vendor is present in the computed vendor-statistics
mapping and whose amount strictly exceeds that vendor's stored sigma
threshold (so an amount exactly equal to the threshold is not flagged, and
a vendor absent from the mapping is never flagged); moreover, for a
transaction of the batch, its vendor is present in the mapping iff the
vendor has at least `minTx` transactions in the batch. -/
theorem claim_C1_outlier_iff :
    (∀ (stdFn : ℚ → ℚ) (sigma : ℚ) (minTx : Nat) (df : List Transaction) (a : Anomaly),
      a ∈ detectStatisticalOutliers (computeVendorStats stdFn sigma minTx df) df ↔
        ∃ t ∈ df, ∃ s, (computeVendorStats stdFn sigma minTx df).lookup t.vendor = some s ∧
          s.threshold_3sigma < t.amount ∧ a = outlierRecord t s)
    ∧ (∀ (stdFn : ℚ → ℚ) (sigma : ℚ) (minTx : Nat) (df : List Transaction)
        (t : Transaction), t ∈ df →
        (((computeVendorStats stdFn sigma minTx df).lookup t.vendor).isSome = true ↔
          minTx ≤ (df.filter (fun u => u.vendor == t.vendor)).length)) := by
  constructor
  · intro stdFn sigma minTx df a
    exact mem_detectStatisticalOutliers
  · intro stdFn sigma minTx df t ht
    rw [lookup_computeVendorStats]
    have hm : t.vendor ∈ df.map (fun u => u.vendor) := List.mem_map_of_mem _ ht
    by_cases hc : minTx ≤ (vendorAmounts df t.vendor).length
    · rw [if_pos ⟨hm, hc⟩]
      rw [length_vendorAmounts] at hc
      simp only [Option.isSome_some]
      exact iff_of_true trivial hc
    · rw [if_neg (fun hcon => hc hcon.2)]
      rw [length_vendorAmounts] at hc
      simp only [Option.isSome_none]
      exact iff_of_false (by simp) hc

/-- Witness for C1 at a concrete batch: vendor `A` has 7 transactions in
`exDfA`, hence is present in the mapping for `minTx = 5`. -/
theorem claim_C1_outlier_iff_witness :
    mkT "t1" 2024 1 1 "A" 6 ∈ exDfA ∧
      (((computeVendorStats ratSqrt 2 5 exDfA).lookup "A").isSome = true ↔
        5 ≤ (exDfA.filter (fun u => u.vendor == "A")).length) :=
  ⟨by decide, claim_C1_outlier_iff.2 ratSqrt 2 5 exDfA (mkT "t1" 2024 1 1 "A" 6) (by decide)⟩

/-- C2 counterexample: with configured multiplier 2 on `exDfA` (vendor `A`
has mean 10, exact sample standard deviation 5, threshold 20), the flagged
amount 21 gets risk score 54 from the source code (which subtracts the
constant 3), while the spec formula with the configured multiplier gives
74. -/
theorem claim_C2_risk_formula_counterexample :
    computeVendorStats ratSqrt 2 5 exDfA = [("A", ⟨7, 10, 5, 20⟩)] ∧
    (detectStatisticalOutliers (computeVendorStats ratSqrt 2 5 exDfA) exDfA).map
      (fun a => a.risk_score) = [54] ∧
    specRiskScoreOutlier 2 10 5 21 = 74 ∧ (54 : ℚ) ≠ 74 := by
  refine ⟨by with_unfolding_all decide, by with_unfolding_all decide, by with_unfolding_all decide, by with_unfolding_all decide⟩

/-- C2 amended: the risk score of every flagged statistical outlier is
`clamp(0, 100, (sigma_observed - 3) * 20 + 70)`, where the subtracted
multiplier is the constant 3 regardless of the configured
`sigma_threshold` (the spec formula with the configured multiplier agrees
only when that multiplier is 3). -/
theorem claim_C2_risk_formula (stats : List (String × VendorStats))
    (df : List Transaction) (a : Anomaly)
    (ha : a ∈ detectStatisticalOutliers stats df) :
    ∃ s, stats.lookup a.vendor = some s ∧
      a.risk_score = min 100 (max 0 ((sigmaMultiplierObs s a.amount - 3) * 20 + 70)) := by
  obtain ⟨t, ht, s, hs, hlt, rfl⟩ := mem_detectStatisticalOutliers.mp ha
  refine ⟨s, ?_, ?_⟩
  · simpa [outlierRecord] using hs
  · simp [outlierRecord]

/-- Witness for the amended C2 on the concrete outlier of `exDfA`. -/
theorem claim_C2_risk_formula_witness :
    ∃ s, (computeVendorStats ratSqrt 2 5 exDfA).lookup
        (outlierRecord (mkT "t7" 2024 1 7 "A" 21) ⟨7, 10, 5, 20⟩).vendor = some s ∧
      (outlierRecord (mkT "t7" 2024 1 7 "A" 21) ⟨7, 10, 5, 20⟩).risk_score
        = min 100 (max 0 ((sigmaMultiplierObs s
            (outlierRecord (mkT "t7" 2024 1 7 "A" 21) ⟨7, 10, 5, 20⟩).amount - 3) * 20 + 70)) :=
  claim_C2_risk_formula (computeVendorStats ratSqrt 2 5 exDfA) exDfA
    (outlierRecord (mkT "t7" 2024 1 7 "A" 21) ⟨7, 10, 5, 20⟩) (by with_unfolding_all decide)

/-- C3: the full analysis returns exactly the concatenation of the four
detector outputs (statistical, pattern, frequency, concentration — no
record removed), sorted by risk score descending, stably: anomalies of any
fixed risk score keep their concatenation order. -/
theorem claim_C3_ranking (stdFn : ℚ → ℚ) (sigma : ℚ) (minTx : Nat)
    (df : List Transaction) :
    (runFullAnalysis stdFn sigma minTx df).Perm
        (detectStatisticalOutliers (computeVendorStats stdFn sigma minTx df) df
          ++ detectRoundDollarPatterns df ++ detectFrequencyAnomalies stdFn df
          ++ detectVendorConcentration (3/10) df) ∧
    (runFullAnalysis stdFn sigma minTx df).Pairwise
        (fun a b => b.risk_score ≤ a.risk_score) ∧
    ∀ r : ℚ,
      (runFullAnalysis stdFn sigma minTx df).filter (fun a => decide (a.risk_score = r))
        = (detectStatisticalOutliers (computeVendorStats stdFn sigma minTx df) df
            ++ detectRoundDollarPatterns df ++ detectFrequencyAnomalies stdFn df
            ++ detectVendorConcentration (3/10) df).filter
            (fun a => decide (a.risk_score = r)) := by
  unfold runFullAnalysis
  refine ⟨List.mergeSort_perm _ _, ?_, ?_⟩
  · have h := List.sorted_mergeSort
      (@riskDesc_trans Anomaly (fun a => a.risk_score))
      (@riskDesc_total Anomaly (fun a => a.risk_score))
      (detectStatisticalOutliers (computeVendorStats stdFn sigma minTx df) df
        ++ detectRoundDollarPatterns df ++ detectFrequencyAnomalies stdFn df
        ++ detectVendorConcentration (3/10) df)
    exact h.imp (fun hab => of_decide_eq_true hab)
  · intro r
    exact filter_mergeSort_key (fun a : Anomaly => a.risk_score) r _

/-- Round-dollar rows never contribute threshold-evasion records. -/
theorem filter_te_roundOpt (t : Transaction) :
    (roundOpt t).toList.filter
        (fun a => decide (a.anomaly_type = AnomalyType.thresholdEvasion)) = [] := by
  unfold roundOpt
  split
  · simp [roundRecord]
  · simp

/-- Threshold-evasion rows are kept whole by the threshold-evasion
filter. -/
theorem filter_te_teOpt (t : Transaction) :
    (teOpt t).toList.filter
        (fun a => decide (a.anomaly_type = AnomalyType.thresholdEvasion))
      = (teOpt t).toList := by
  unfold teOpt
  cases h : approvalThresholds.find?
      (fun thr => decide (thr - 100 ≤ t.amount) && decide (t.amount < thr)) with
  | none => simp
  | some thr => simp [teRecord]

/-- C4: per transaction, the pattern detector emits at most one
threshold-evasion anomaly; one is emitted iff some listed threshold `thr`
has `thr - 100 <= amount < thr`; the reported threshold is the smallest
such threshold and the risk score is the constant 80; and the
threshold-evasion part of the detector output is exactly the per-row
option, so no transaction contributes two. -/
theorem claim_C4_threshold_evasion :
    (∀ t : Transaction,
      (∃ a, teOpt t = some a) ↔
        ∃ thr ∈ approvalThresholds, thr - 100 ≤ t.amount ∧ t.amount < thr)
    ∧ (∀ (t : Transaction) (a : Anomaly), teOpt t = some a →
        ∃ thr ∈ approvalThresholds, thr - 100 ≤ t.amount ∧ t.amount < thr ∧
          a = teRecord t thr ∧ a.risk_score = 80 ∧
          ∀ u ∈ approvalThresholds, u - 100 ≤ t.amount → t.amount < u → thr ≤ u)
    ∧ (∀ df : List Transaction,
        (detectRoundDollarPatterns df).filter
            (fun a => decide (a.anomaly_type = AnomalyType.thresholdEvasion))
          = df.filterMap teOpt) := by
  refine ⟨?_, ?_, ?_⟩
  · intro t
    constructor
    · rintro ⟨a, ha⟩
      obtain ⟨thr, hfind, -⟩ := teOpt_eq_some.mp ha
      obtain ⟨hmem, h1, h2, -⟩ := teFind_characterization hfind
      exact ⟨thr, hmem, h1, h2⟩
    · rintro ⟨thr, hmem, h1, h2⟩
      have : (approvalThresholds.find?
          (fun u => decide (u - 100 ≤ t.amount) && decide (t.amount < u))).isSome := by
        rw [List.find?_isSome]
        exact ⟨thr, hmem, by simp [h1, h2]⟩
      obtain ⟨u, hu⟩ := Option.isSome_iff_exists.mp this
      exact ⟨teRecord t u, teOpt_eq_some.mpr ⟨u, hu, rfl⟩⟩
  · intro t a ha
    obtain ⟨thr, hfind, rfl⟩ := teOpt_eq_some.mp ha
    obtain ⟨hmem, h1, h2, hmin⟩ := teFind_characterization hfind
    exact ⟨thr, hmem, h1, h2, rfl, rfl, hmin⟩
  · intro df
    induction df with
    | nil => rfl
    | cons t df ih =>
      rw [detectRoundDollarPatterns, List.flatMap_cons, List.filter_append,
        List.filter_append, filter_te_roundOpt, filter_te_teOpt]
      show [] ++ _ ++ (detectRoundDollarPatterns df).filter _ = _
      rw [ih, List.nil_append, List.filterMap_cons]
      cases h : teOpt t with
      | none => simp [h]
      | some a => simp [h]

unseal Rat.add Rat.sub Rat.mul Rat.inv in
/-- Witness for C4 at the concrete amount 4999: flagged against threshold
5000 with risk score 80. -/
theorem claim_C4_threshold_evasion_witness :
    ∃ thr ∈ approvalThresholds,
      thr - 100 ≤ (mkT "w1" 2024 1 1 "A" 4999).amount ∧
      (mkT "w1" 2024 1 1 "A" 4999).amount < thr ∧
      teRecord (mkT "w1" 2024 1 1 "A" 4999) 5000 = teRecord (mkT "w1" 2024 1 1 "A" 4999) thr ∧
      (teRecord (mkT "w1" 2024 1 1 "A" 4999) 5000).risk_score = 80 ∧
      ∀ u ∈ approvalThresholds, u - 100 ≤ (mkT "w1" 2024 1 1 "A" 4999).amount →
        (mkT "w1" 2024 1 1 "A" 4999).amount < u → thr ≤ u :=
  claim_C4_threshold_evasion.2.1 (mkT "w1" 2024 1 1 "A" 4999)
    (teRecord (mkT "w1" 2024 1 1 "A" 4999) 5000) (by decide)

/-- C5: a frequency-spike anomaly is emitted exactly for the vendor-months
where the vendor has at least 3 distinct months of history, the standard
deviation of its monthly counts is strictly positive, and the month count
is both strictly above mean plus two standard deviations and at least 10;
the risk score is `min(90, 50 + (count - mean) * 5)`; vendors with fewer
than 3 months or zero variance in monthly counts produce nothing. -/
theorem claim_C5_frequency :
    (∀ (stdFn : ℚ → ℚ) (df : List Transaction) (a : Anomaly),
      a ∈ detectFrequencyAnomalies stdFn df ↔
        ∃ v ∈ vendorsSorted df, ∃ m ∈ monthsOf df v,
          3 ≤ (monthsOf df v).length ∧ 0 < stdFn (freqVar df v) ∧
          freqMean df v + 2 * stdFn (freqVar df v) < (countVM df v m : ℚ) ∧
          10 ≤ countVM df v m ∧
          a = freqRecord v m (countVM df v m) (freqMean df v) ∧
          a.risk_score = min 90 (50 + ((countVM df v m : ℚ) - freqMean df v) * 5))
    ∧ (∀ stdFn : ℚ → ℚ, stdFn 0 = 0 →
        ∀ (df : List Transaction) (v : String),
          (monthsOf df v).length < 3 ∨ freqVar df v = 0 →
          ∀ a ∈ detectFrequencyAnomalies stdFn df, a.vendor ≠ v) := by
  constructor
  · intro stdFn df a
    rw [mem_detectFrequencyAnomalies]
    constructor
    · rintro ⟨v, hv, h3, hstd, m, hm, hemit⟩
      obtain ⟨h1, h2, rfl⟩ := freqEmitOpt_eq_some.mp hemit
      exact ⟨v, hv, m, hm, h3, hstd, h1, h2, rfl, rfl⟩
    · rintro ⟨v, hv, m, hm, h3, hstd, h1, h2, rfl, -⟩
      exact ⟨v, hv, h3, hstd, m, hm, freqEmitOpt_eq_some.mpr ⟨h1, h2, rfl⟩⟩
  · intro stdFn hstd0 df v hdeg a ha hav
    rw [mem_detectFrequencyAnomalies] at ha
    obtain ⟨w, hw, h3, hstd, m, hm, hemit⟩ := ha
    obtain ⟨-, -, rfl⟩ := freqEmitOpt_eq_some.mp hemit
    have hwv : w = v := hav
    subst hwv
    rcases hdeg with hlt | hvar
    · omega
    · rw [hvar, hstd0] at hstd
      exact lt_irrefl 0 hstd

/-- Witness for C5: vendor `W` has no months in `freqDfV`, so nothing is
emitted for it under the exact square root. -/
theorem claim_C5_frequency_witness :
    ratSqrt 0 = 0 ∧ (monthsOf freqDfV "W").length < 3 ∧
      ∀ a ∈ detectFrequencyAnomalies ratSqrt freqDfV, a.vendor ≠ "W" :=
  ⟨by with_unfolding_all decide, by with_unfolding_all decide,
    claim_C5_frequency.2 ratSqrt (by with_unfolding_all decide) freqDfV "W"
      (Or.inl (by with_unfolding_all decide))⟩

/-- C6: on a batch of non-negative amounts with zero total (empty or
all-zero batch) the concentration detector reports nothing (and, being a
total function, cannot fail); with a nonzero total it emits an anomaly
exactly for the vendors whose share strictly exceeds the threshold, with
risk score `min(95, 60 + concentration * 100)`. -/
theorem claim_C6_concentration :
    (∀ (thr : ℚ) (df : List Transaction), (∀ t ∈ df, 0 ≤ t.amount) →
      totalAmount df = 0 → detectVendorConcentration thr df = [])
    ∧ (∀ (thr : ℚ) (df : List Transaction) (a : Anomaly), totalAmount df ≠ 0 →
        (a ∈ detectVendorConcentration thr df ↔
          ∃ v ∈ vendorsSorted df, thr < vendorTotal df v / totalAmount df ∧
            a = concRecord df v (vendorTotal df v) ∧
            a.risk_score = min 95 (60 + (vendorTotal df v / totalAmount df) * 100))) := by
  constructor
  · intro thr df hnn h0
    unfold detectVendorConcentration
    rw [List.filterMap_eq_nil_iff]
    intro p hp
    rw [if_neg]
    rintro ⟨hne, -⟩
    exact hne h0
  · intro thr df a h0
    rw [mem_detectVendorConcentration]
    constructor
    · rintro ⟨-, v, hv, hlt, rfl⟩
      exact ⟨v, hv, hlt, rfl, rfl⟩
    · rintro ⟨v, hv, hlt, rfl, -⟩
      exact ⟨h0, v, hv, hlt, rfl⟩

/-- Witness for C6: the all-zero batch yields nothing; in `concDf` vendor
`A` holds 70 percent of the spend and is flagged. -/
theorem claim_C6_concentration_witness :
    (totalAmount zeroDf = 0 ∧ detectVendorConcentration (3/10) zeroDf = []) ∧
      concRecord concDf "A" (vendorTotal concDf "A")
        ∈ detectVendorConcentration (3/10) concDf :=
  ⟨⟨by with_unfolding_all decide,
    claim_C6_concentration.1 (3/10) zeroDf (by with_unfolding_all decide)
      (by with_unfolding_all decide)⟩,
   (claim_C6_concentration.2 (3/10) concDf
      (concRecord concDf "A" (vendorTotal concDf "A")) (by with_unfolding_all decide)).mpr
     ⟨"A", by with_unfolding_all decide, by with_unfolding_all decide, rfl,
      by with_unfolding_all decide⟩⟩

/-- Risk bounds of the statistical-outlier detector: clamped by
construction. -/
theorem risk_bounds_outlier {stats : List (String × VendorStats)}
    {df : List Transaction} :
    ∀ a ∈ detectStatisticalOutliers stats df, 0 ≤ a.risk_score ∧ a.risk_score ≤ 100 := by
  intro a ha
  obtain ⟨t, -, s, -, -, rfl⟩ := mem_detectStatisticalOutliers.mp ha
  constructor
  · exact le_min (by norm_num) (le_max_left _ _)
  · exact min_le_left _ _

/-- Risk bounds of the pattern detector. -/
theorem risk_bounds_round {df : List Transaction} :
    ∀ a ∈ detectRoundDollarPatterns df, 0 ≤ a.risk_score ∧ a.risk_score ≤ 100 := by
  intro a ha
  obtain ⟨t, -, hca⟩ := mem_detectRoundDollarPatterns.mp ha
  rcases hca with hr | hte
  · obtain ⟨⟨-, hge⟩, rfl⟩ := roundOpt_eq_some.mp hr
    have hdiv : (0:ℚ) ≤ t.amount / 10000 := div_nonneg (by linarith) (by norm_num)
    constructor
    · exact le_min (by norm_num) (by linarith)
    · exact le_trans (min_le_left _ _) (by norm_num)
  · obtain ⟨thr, -, rfl⟩ := teOpt_eq_some.mp hte
    constructor
    · norm_num [teRecord]
    · norm_num [teRecord]

/-- Risk bounds of the frequency detector: the count strictly exceeds the
mean whenever a spike is emitted. -/
theorem risk_bounds_freq {stdFn : ℚ → ℚ} {df : List Transaction} :
    ∀ a ∈ detectFrequencyAnomalies stdFn df, 0 ≤ a.risk_score ∧ a.risk_score ≤ 100 := by
  intro a ha
  obtain ⟨v, -, -, hstd, m, -, hemit⟩ := mem_detectFrequencyAnomalies.mp ha
  obtain ⟨h1, -, rfl⟩ := freqEmitOpt_eq_some.mp hemit
  have hpos : (0:ℚ) ≤ ((countVM df v m : ℚ) - freqMean df v) * 5 := by nlinarith
  constructor
  · exact le_min (by norm_num) (by linarith)
  · exact le_trans (min_le_left _ _) (by norm_num)

/-- Risk bounds of the concentration detector, for non-negative amounts. -/
theorem risk_bounds_conc {thr : ℚ} {df : List Transaction}
    (hnn : ∀ t ∈ df, 0 ≤ t.amount) :
    ∀ a ∈ detectVendorConcentration thr df, 0 ≤ a.risk_score ∧ a.risk_score ≤ 100 := by
  intro a ha
  obtain ⟨h0, v, -, -, rfl⟩ := mem_detectVendorConcentration.mp ha
  have htot : 0 ≤ totalAmount df := by
    apply List.sum_nonneg
    intro x hx
    obtain ⟨t, ht, rfl⟩ := List.mem_map.mp hx
    exact hnn t ht
  have hvt : 0 ≤ vendorTotal df v := by
    apply List.sum_nonneg
    intro x hx
    obtain ⟨t, ht, rfl⟩ := List.mem_map.mp hx
    exact hnn t (List.mem_of_mem_filter ht)
  have hconc : 0 ≤ vendorTotal df v / totalAmount df :=
    div_nonneg hvt htot
  constructor
  · exact le_min (by norm_num) (by nlinarith)
  · exact le_trans (min_le_left _ _) (by norm_num)

/-- C7: every anomaly record emitted by any of the four detectors, and
hence every record of the ranked full-analysis output, carries a risk
score in the closed interval 0 to 100, for every batch of non-negative
amounts. -/
theorem claim_C7_risk_bounds (stdFn : ℚ → ℚ) (sigma : ℚ) (minTx : Nat) (thr : ℚ)
    (stats : List (String × VendorStats)) (df : List Transaction)
    (hnn : ∀ t ∈ df, 0 ≤ t.amount) (a : Anomaly)
    (ha : a ∈ detectStatisticalOutliers stats df ∨ a ∈ detectRoundDollarPatterns df ∨
      a ∈ detectFrequencyAnomalies stdFn df ∨ a ∈ detectVendorConcentration thr df ∨
      a ∈ runFullAnalysis stdFn sigma minTx df) :
    0 ≤ a.risk_score ∧ a.risk_score ≤ 100 := by
  rcases ha with h | h | h | h | h
  · exact risk_bounds_outlier a h
  · exact risk_bounds_round a h
  · exact risk_bounds_freq a h
  · exact risk_bounds_conc hnn a h
  · rw [runFullAnalysis, List.mem_mergeSort] at h
    simp only [List.mem_append] at h
    rcases h with ((h | h) | h) | h
    · exact risk_bounds_outlier a h
    · exact risk_bounds_round a h
    · exact risk_bounds_freq a h
    · exact risk_bounds_conc hnn a h

/-- Witness for C7 on the concrete concentration anomaly of `concDf`. -/
theorem claim_C7_risk_bounds_witness :
    (∀ t ∈ concDf, 0 ≤ t.amount) ∧
      0 ≤ (concRecord concDf "A" (vendorTotal concDf "A")).risk_score ∧
      (concRecord concDf "A" (vendorTotal concDf "A")).risk_score ≤ 100 :=
  ⟨by with_unfolding_all decide,
    claim_C7_risk_bounds ratSqrt 3 5 (3/10) [] concDf (by with_unfolding_all decide)
      (concRecord concDf "A" (vendorTotal concDf "A"))
      (Or.inr (Or.inr (Or.inr (Or.inl (by with_unfolding_all decide)))))⟩

/-- C8: on the empty batch, each of the four detectors and the full
analysis return the empty sequence (and, being total functions, cannot
fail). -/
theorem claim_C8_empty_batch (stdFn : ℚ → ℚ) (sigma : ℚ) (minTx : Nat) (thr : ℚ)
    (stats : List (String × VendorStats)) :
    detectStatisticalOutliers stats [] = [] ∧
    detectRoundDollarPatterns [] = [] ∧
    detectFrequencyAnomalies stdFn [] = [] ∧
    detectVendorConcentration thr [] = [] ∧
    runFullAnalysis stdFn sigma minTx [] = [] := by
  refine ⟨rfl, rfl, rfl, rfl, ?_⟩
  show List.mergeSort ([] : List Anomaly) riskDescBool = []
  exact List.mergeSort_nil

/-- C9 counterexample: the frequency detector does not leave the loaded
batch unchanged — it writes the derived `year_month` column onto it. -/
theorem claim_C9_purity_counterexample :
    (detectFrequencyAnomaliesSt ratSqrt ⟨[mkT "t1" 2024 1 1 "A" 5], none⟩).1
      ≠ (⟨[mkT "t1" 2024 1 1 "A" 5], none⟩ : DfState) := by
  with_unfolding_all decide

/-- C9 amended: the statistical, pattern, and concentration detectors
leave the batch state unchanged; the frequency detector leaves every
transaction record and field unchanged but adds the derived `year_month`
column; and every detector's anomaly output depends only on the
transaction records, so no detector observes state written by another. -/
theorem claim_C9_purity :
    (∀ (stats : List (String × VendorStats)) (s : DfState),
      (detectStatisticalOutliersSt stats s).1 = s)
    ∧ (∀ s : DfState, (detectRoundDollarPatternsSt s).1 = s)
    ∧ (∀ (thr : ℚ) (s : DfState), (detectVendorConcentrationSt thr s).1 = s)
    ∧ (∀ (stdFn : ℚ → ℚ) (s : DfState),
        (detectFrequencyAnomaliesSt stdFn s).1.txns = s.txns ∧
        (detectFrequencyAnomaliesSt stdFn s).1.year_month_col
          = some (s.txns.map (fun t => t.date.toYM)))
    ∧ (∀ (stdFn : ℚ → ℚ) (stats : List (String × VendorStats)) (thr : ℚ)
        (s1 s2 : DfState), s1.txns = s2.txns →
        (detectStatisticalOutliersSt stats s1).2 = (detectStatisticalOutliersSt stats s2).2 ∧
        (detectRoundDollarPatternsSt s1).2 = (detectRoundDollarPatternsSt s2).2 ∧
        (detectFrequencyAnomaliesSt stdFn s1).2 = (detectFrequencyAnomaliesSt stdFn s2).2 ∧
        (detectVendorConcentrationSt thr s1).2 = (detectVendorConcentrationSt thr s2).2) := by
  refine ⟨fun _ _ => rfl, fun _ => rfl, fun _ _ => rfl, fun _ _ => ⟨rfl, rfl⟩, ?_⟩
  intro stdFn stats thr s1 s2 h
  refine ⟨?_, ?_, ?_, ?_⟩
  · simp only [detectStatisticalOutliersSt, h]
  · simp only [detectRoundDollarPatternsSt, h]
  · simp only [detectFrequencyAnomaliesSt, h]
  · simp only [detectVendorConcentrationSt, h]

/-- Witness for C9: two states with the same rows and different derived
columns give identical detector outputs. -/
theorem claim_C9_purity_witness :
    (⟨[mkT "t1" 2024 1 1 "A" 5], none⟩ : DfState).txns
        = (⟨[mkT "t1" 2024 1 1 "A" 5], some [⟨2024, 1⟩]⟩ : DfState).txns ∧
      ((detectStatisticalOutliersSt [] ⟨[mkT "t1" 2024 1 1 "A" 5], none⟩).2
          = (detectStatisticalOutliersSt [] ⟨[mkT "t1" 2024 1 1 "A" 5], some [⟨2024, 1⟩]⟩).2 ∧
        (detectRoundDollarPatternsSt ⟨[mkT "t1" 2024 1 1 "A" 5], none⟩).2
          = (detectRoundDollarPatternsSt ⟨[mkT "t1" 2024 1 1 "A" 5], some [⟨2024, 1⟩]⟩).2 ∧
        (detectFrequencyAnomaliesSt ratSqrt ⟨[mkT "t1" 2024 1 1 "A" 5], none⟩).2
          = (detectFrequencyAnomaliesSt ratSqrt ⟨[mkT "t1" 2024 1 1 "A" 5], some [⟨2024, 1⟩]⟩).2 ∧
        (detectVendorConcentrationSt (3/10) ⟨[mkT "t1" 2024 1 1 "A" 5], none⟩).2
          = (detectVendorConcentrationSt (3/10) ⟨[mkT "t1" 2024 1 1 "A" 5], some [⟨2024, 1⟩]⟩).2) :=
  ⟨rfl, claim_C9_purity.2.2.2.2 ratSqrt [] (3/10)
    ⟨[mkT "t1" 2024 1 1 "A" 5], none⟩ ⟨[mkT "t1" 2024 1 1 "A" 5], some [⟨2024, 1⟩]⟩ rfl⟩

/-- C10: every frequency-spike anomaly is aggregate-level in shape: its
id is the synthetic string `freq_{vendor}_{year_month}`, its date slot is
the period label string (not a transaction timestamp), and its amount
is 0. -/
theorem claim_C10_freq_shape (stdFn : ℚ → ℚ) (df : List Transaction) (a : Anomaly)
    (ha : a ∈ detectFrequencyAnomalies stdFn df) :
    ∃ v m, a.transaction_id = "freq_" ++ v ++ "_" ++ ymString m ∧
      a.date = DateField.txt (ymString m) ∧ a.vendor = v ∧ a.amount = 0 := by
  obtain ⟨v, -, -, -, m, -, hemit⟩ := mem_detectFrequencyAnomalies.mp ha
  obtain ⟨-, -, rfl⟩ := freqEmitOpt_eq_some.mp hemit
  exact ⟨v, m, rfl, rfl, rfl, rfl⟩

/-- Witness for C10 on the concrete spike of `freqDfV`. -/
theorem claim_C10_freq_shape_witness :
    ∃ v m, (freqRecord "V" ⟨2024, 3⟩ 10 4).transaction_id
        = "freq_" ++ v ++ "_" ++ ymString m ∧
      (freqRecord "V" ⟨2024, 3⟩ 10 4).date = DateField.txt (ymString m) ∧
      (freqRecord "V" ⟨2024, 3⟩ 10 4).vendor = v ∧
      (freqRecord "V" ⟨2024, 3⟩ 10 4).amount = 0 :=
  claim_C10_freq_shape (fun _ => 1) freqDfV (freqRecord "V" ⟨2024, 3⟩ 10 4)
    (by with_unfolding_all decide)
